import Mathlib

/-!
Verification development for the sdg_ladm repository.

The development shallowly embeds the two logic cores of the application:

* the JSON record store and filter engine of `src/app/explorer/page.tsx`
  (key derivation, import, filtering, row identity, inline editing), and
* the growth-rate calculator `computeRates` of `src/app/demo-1131/page.tsx`.

JSON values are modelled by the inductive `JsonValue`; JavaScript strings by
`String`; JavaScript numbers appearing in records by integers (all data the
claims touch is integral); the opaque `Math.log` of the rate calculator by an
abstract function parameter.  Stateful React `useState` fields are collected
in the explicit record `ExplorerState`, and each event handler becomes a pure
state-transformation function.
-/

namespace SdgLadm

/-- A JSON value: null, boolean, number, text, ordered sequence, or nested
mapping.  Mirrors the untyped `JsonRecord = Record<string, any>` values the
explorer page manipulates. -/
inductive JsonValue : Type where
  | null : JsonValue
  | bool : Bool → JsonValue
  | num : Int → JsonValue
  | str : String → JsonValue
  | arr : List JsonValue → JsonValue
  | obj : List (String × JsonValue) → JsonValue

/-- Property access `row[key]` on a JSON value: objects yield the value of the
named field (`none` models JavaScript `undefined` for an absent field); any
non-object value has no named fields. -/
def getField : JsonValue → String → Option JsonValue
  | .obj fs, k => fs.lookup k
  | _, _ => none

/-- JavaScript truthiness of a JSON value: `null`, `false`, `0` and the empty
string are falsy; every other value (including empty arrays and objects) is
truthy. -/
def truthy : JsonValue → Bool
  | .null => false
  | .bool b => b
  | .num n => n != 0
  | .str s => s != ""
  | .arr _ => true
  | .obj _ => true

/-- Fuel-driven digit extraction: with fuel exceeding the input, produces the
decimal digit sequence of the input, most significant digit first. -/
def natDecAux : Nat → Nat → List Char
  | 0, _ => []
  | fuel + 1, n =>
      if n < 10 then [Nat.digitChar n]
      else natDecAux fuel (n / 10) ++ [Nat.digitChar (n % 10)]

/-- Decimal digit sequence of a natural number, most significant digit first.
Models the decimal rendering JavaScript applies to a non-negative number in a
template string. -/
def natDecChars (n : Nat) : List Char := natDecAux (n + 1) n

/-- Decimal string of a natural number. -/
def natDecimal (n : Nat) : String := ⟨natDecChars n⟩

/-- Decimal string of an integer, negative numbers prefixed with `-`; models
JavaScript number-to-string conversion for integral values. -/
def intDecimal : Int → String
  | .ofNat m => natDecimal m
  | .negSucc m => "-" ++ natDecimal (m + 1)

mutual

/-- JavaScript `String(value)` conversion of a JSON value: `null` prints as
"null", booleans as "true"/"false", numbers in decimal, strings unchanged,
arrays as their elements joined with "," (with null elements rendered empty,
as `Array.prototype.join` does), plain objects as "[object Object]". -/
def jsToString : JsonValue → String
  | .null => "null"
  | .bool b => if b then "true" else "false"
  | .num n => intDecimal n
  | .str s => s
  | .arr xs => jsJoin "," xs
  | .obj _ => "[object Object]"

/-- Rendering of a single element under `Array.prototype.join`: null (and
undefined) elements render as the empty string; every other value renders the
same way as under `String(·)`. -/
def jsJoinOne : JsonValue → String
  | .null => ""
  | .bool b => if b then "true" else "false"
  | .num n => intDecimal n
  | .str s => s
  | .arr xs => jsJoin "," xs
  | .obj _ => "[object Object]"
termination_by structural v => v

/-- JavaScript `array.join(sep)`. -/
def jsJoin (sep : String) : List JsonValue → String
  | [] => ""
  | [x] => jsJoinOne x
  | x :: y :: xs => jsJoinOne x ++ sep ++ jsJoin sep (y :: xs)
termination_by structural l => l

end

/-- JSON escaping of a single character, as performed by `JSON.stringify` for
the characters that occur in this development. -/
def escapeJsonChar (c : Char) : String :=
  if c = '"' then "\\\""
  else if c = '\\' then "\\\\"
  else if c = '\n' then "\\n"
  else if c = '\t' then "\\t"
  else if c = '\r' then "\\r"
  else String.singleton c

/-- JSON escaping of a string body. -/
def escapeJson (s : String) : String :=
  s.data.foldl (fun acc c => acc ++ escapeJsonChar c) ""

mutual

/-- Compact `JSON.stringify` of a JSON value. -/
def jsonStringify : JsonValue → String
  | .null => "null"
  | .bool b => if b then "true" else "false"
  | .num n => intDecimal n
  | .str s => "\"" ++ escapeJson s ++ "\""
  | .arr xs => "[" ++ jsonStrList xs ++ "]"
  | .obj fs => "\x7b" ++ jsonStrFields fs ++ "\x7d"
termination_by structural v => v

/-- Comma-separated serialization of the elements of a JSON array. -/
def jsonStrList : List JsonValue → String
  | [] => ""
  | [x] => jsonStringify x
  | x :: y :: xs => jsonStringify x ++ "," ++ jsonStrList (y :: xs)
termination_by structural l => l

/-- Comma-separated serialization of the fields of a JSON object. -/
def jsonStrFields : List (String × JsonValue) → String
  | [] => ""
  | [(k, v)] => "\"" ++ escapeJson k ++ "\":" ++ jsonStringify v
  | (k, v) :: f :: fs =>
      "\"" ++ escapeJson k ++ "\":" ++ jsonStringify v ++ "," ++ jsonStrFields (f :: fs)
termination_by structural l => l

end

/-- Substring occurrence test on character lists: does the second list contain
the first as a contiguous run?  The empty needle occurs in every haystack. -/
def charsIncludes (needle : List Char) : List Char → Bool
  | [] => needle.isEmpty
  | c :: rest => needle.isPrefixOf (c :: rest) || charsIncludes needle rest

/-- JavaScript `s.includes(pat)`: substring containment test. -/
def strIncludes (s pat : String) : Bool := charsIncludes pat.data s.data

/-- JavaScript `s.toLowerCase()` on the ASCII data the filters compare. -/
def jsToLower (s : String) : String := ⟨s.data.map Char.toLower⟩

/-- The global-search test the explorer applies to a single field value
(explorer page, `filtered`, global branch): a null or absent value never
matches; an array value is joined with a single space; a nested object is
serialized with `JSON.stringify`; a scalar is stringified; in every case a
case-insensitive substring test against the query. -/
def globalFieldMatch (q : String) : Option JsonValue → Bool
  | none => false
  | some .null => false
  | some (.arr xs) => strIncludes (jsToLower (jsJoin " " xs)) (jsToLower q)
  | some (.obj fs) => strIncludes (jsToLower (jsonStringify (.obj fs))) (jsToLower q)
  | some v => strIncludes (jsToLower (jsToString v)) (jsToLower q)

/-- The per-column filter test (explorer page, `filtered`, column branch) for
one configured column: an empty pattern always passes; a null or absent value
never matches a non-empty pattern; for an array value, substring mode joins
the elements with a single space while exact mode compares each stringified
element; a nested object is serialized with `JSON.stringify`; a scalar is
stringified; all comparisons are case-insensitive. -/
def columnFilterPass (isExact : Bool) (filterValue : String) (value : Option JsonValue) :
    Bool :=
  if filterValue = "" then true
  else
    match value with
    | none => false
    | some .null => false
    | some (.arr xs) =>
        if isExact then xs.any fun item => jsToLower (jsToString item) == jsToLower filterValue
        else strIncludes (jsToLower (jsJoin " " xs)) (jsToLower filterValue)
    | some (.obj fs) =>
        if isExact then jsToLower (jsonStringify (.obj fs)) == jsToLower filterValue
        else strIncludes (jsToLower (jsonStringify (.obj fs))) (jsToLower filterValue)
    | some v =>
        if isExact then jsToLower (jsToString v) == jsToLower filterValue
        else strIncludes (jsToLower (jsToString v)) (jsToLower filterValue)

/-- The combined row predicate of the `filtered` memo: the global query
(vacuously true when empty, otherwise OR-combined over all known fields)
AND every configured per-column filter (ANDed, with the column's exact-match
toggle defaulting to off). -/
def rowPasses (jsonKeys : List String) (q : String)
    (columnFilters : List (String × String)) (columnExactMatch : List (String × Bool))
    (r : JsonValue) : Bool :=
  (if q = "" then true
   else jsonKeys.any fun key => globalFieldMatch q (getField r key)) &&
  (columnFilters.all fun p =>
    columnFilterPass ((columnExactMatch.lookup p.1).getD false) p.2 (getField r p.1))

/-- The `filtered` view: the rows that pass `rowPasses`, in original order. -/
def filteredRows (rows : List JsonValue) (jsonKeys : List String) (q : String)
    (columnFilters : List (String × String)) (columnExactMatch : List (String × Bool)) :
    List JsonValue :=
  rows.filter (rowPasses jsonKeys q columnFilters columnExactMatch)

/-- Spec-side reading of the global-query clause: the query is empty, or some
known field matches it (OR-combination across all known fields). -/
def passesGlobalQuery (jsonKeys : List String) (q : String) (r : JsonValue) : Prop :=
  q = "" ∨ ∃ key ∈ jsonKeys, globalFieldMatch q (getField r key) = true

/-- Spec-side reading of the per-column clause: every configured column
filter accepts the record (AND-combination). -/
def passesColumnFilters (columnFilters : List (String × String))
    (columnExactMatch : List (String × Bool)) (r : JsonValue) : Prop :=
  ∀ p ∈ columnFilters,
    columnFilterPass ((columnExactMatch.lookup p.1).getD false) p.2 (getField r p.1) = true

/-- The mutable page state of the explorer, one field per `useState` hook the
modelled operations read or write. -/
structure ExplorerState where
  rows : List JsonValue
  jsonData : List JsonValue
  jsonKeys : List String
  q : String
  columnFilters : List (String × String)
  columnExactMatch : List (String × Bool)
  visibleColumns : List (String × Bool)
  editingRowId : Option String
  editingData : JsonValue
  editedRows : List String

/-- Truthiness of `row[k]`: an absent field (undefined) is falsy. -/
def fieldTruthy (row : JsonValue) (k : String) : Bool :=
  match getField row k with
  | some v => truthy v
  | none => false

/-- JavaScript `String(row[k])`; an absent field stringifies as "undefined". -/
def fieldString (row : JsonValue) (k : String) : String :=
  match getField row k with
  | some v => jsToString v
  | none => "undefined"

/-- The derived base identity of a row (`getRowId`, cascade part): the first
truthy value among the fields `unsd_code`, `id`, `indicator`, else the value
of the first known field (or "unknown" when there is no usable first key). -/
def rowBaseId (jsonKeys : List String) (row : JsonValue) : String :=
  if fieldTruthy row "unsd_code" then fieldString row "unsd_code"
  else if fieldTruthy row "id" then fieldString row "id"
  else if fieldTruthy row "indicator" then fieldString row "indicator"
  else
    match jsonKeys.head? with
    | some firstKey => if firstKey = "" then "unknown" else fieldString row firstKey
    | none => "unknown"

/-- `getRowId` at a supplied index: the base identity concatenated with "-"
and the decimal index.  Every call site on the page supplies an index
(possibly the -1 of a failed `findIndex`), so the random-suffix fallback for
an omitted index is not modelled. -/
def getRowId (jsonKeys : List String) (row : JsonValue) (index : Int) : String :=
  rowBaseId jsonKeys row ++ "-" ++ intDecimal index

/-- `Object.keys` of a JSON value, as used by the key-universe scan (which
only reaches non-null values of object type): field names of an object,
decimal index strings of an array, and nothing for primitives. -/
def itemKeys : JsonValue → List String
  | .obj fs => fs.map Prod.fst
  | .arr xs => (List.range xs.length).map natDecimal
  | _ => []

/-- Insertion into an insertion-ordered key set, keeping first appearance. -/
def addKeysOnce (acc : List String) (ks : List String) : List String :=
  ks.foldl (fun a k => if a.contains k then a else a ++ [k]) acc

/-- The ordered union of keys across all records of the input, order of first
appearance preserved (the `allKeys` Set of `processJsonData`). -/
def collectKeys (data : List JsonValue) : List String :=
  data.foldl (fun acc item => addKeysOnce acc (itemKeys item)) []

/-- The columns seeded visible on load when present. -/
def priorityColumns : List String :=
  ["indicator", "title", "tier", "ladmLink", "externalData"]

/-- The default column-visibility map of `processJsonData`: priority columns
visible when present; when none of them occurs, the first six keys. -/
def defaultVisibleColumns (keys : List String) : List (String × Bool) :=
  let base := keys.map fun key => (key, priorityColumns.contains key)
  if (base.filter fun kv => kv.2).length = 0 then
    keys.enum.map fun p => (p.2, decide (p.1 < 6))
  else base

/-- `processJsonData` (load): replaces the collection, the key universe and
the column-visibility defaults; empty input clears those four fields.  No
other state field is written. -/
def processJsonData (st : ExplorerState) (data : List JsonValue) : ExplorerState :=
  if data.isEmpty then
    { st with jsonData := [], jsonKeys := [], rows := [], visibleColumns := [] }
  else
    let keys := collectKeys data
    { st with jsonData := data, jsonKeys := keys, rows := data,
              visibleColumns := defaultVisibleColumns keys }

/-- `importJsonData` after the file is read: `none` models a JSON parse
failure (the alert path, which performs no state update); a parsed top-level
array is used directly; any other parsed value is wrapped into a one-element
collection. -/
def importCollection (st : ExplorerState) (parsed : Option JsonValue) : ExplorerState :=
  match parsed with
  | none => st
  | some (.arr xs) => processJsonData st xs
  | some v => processJsonData st [v]

/-- JavaScript `findIndex`: index of the first match, or -1. -/
def jsFindIndex (p : JsonValue → Bool) (l : List JsonValue) : Int :=
  match l.findIdx? p with
  | some i => (i : Int)
  | none => -1

/-- JavaScript object spread `({...v})` over the value shapes of the model:
an object copies its fields; arrays and strings spread to index-keyed fields;
primitives spread to an empty object. -/
def spreadToObj : JsonValue → JsonValue
  | .obj fs => .obj fs
  | .arr xs => .obj (xs.enum.map fun p => (natDecimal p.1, p.2))
  | .str s => .obj (s.data.enum.map fun p => (natDecimal p.1, .str (String.singleton p.2)))
  | _ => .obj []

/-- `startEditing`: locate the row by serialized equality, then
unconditionally open an edit session for it, overwriting any session already
open; the collection itself is not touched. -/
def startEditing (st : ExplorerState) (rowData : JsonValue) : ExplorerState :=
  let index := jsFindIndex (fun r => jsonStringify r == jsonStringify rowData) st.rows
  { st with editingRowId := some (getRowId st.jsonKeys rowData index),
            editingData := spreadToObj rowData }

/-- `cancelEdit`: close any open session and discard the draft; no other
state is touched. -/
def cancelEdit (st : ExplorerState) : ExplorerState :=
  { st with editingRowId := none, editingData := .obj [] }

/-- Position of the first element satisfying an index-aware predicate. -/
def findIndexWithIdx (p : Nat → JsonValue → Bool) (l : List JsonValue) : Option Nat :=
  (l.enum.find? fun q => p q.1 q.2).map fun q => q.1

/-- JavaScript `Set.add` on an insertion-ordered set modelled as a list. -/
def jsSetAdd (s : List String) (x : String) : List String :=
  if s.contains x then s else s ++ [x]

/-- `saveEdit`: with no open session, do nothing.  Otherwise look the
session's identity up among the current rows by recomputed row id; on a hit
replace that row (in `rows` and `jsonData`) with the draft, on a miss leave
the collection untouched; in either case add the identity to the edited set
and close the session. -/
def saveEdit (st : ExplorerState) : ExplorerState :=
  match st.editingRowId with
  | none => st
  | some rid =>
      let idx? := findIndexWithIdx (fun i r => getRowId st.jsonKeys r (i : Int) == rid) st.rows
      let rows' := match idx? with
        | none => st.rows
        | some idx => st.rows.set idx st.editingData
      let jsonData' := match idx? with
        | none => st.jsonData
        | some _ => rows'
      { st with rows := rows', jsonData := jsonData',
                editedRows := jsSetAdd st.editedRows rid,
                editingRowId := none, editingData := .obj [] }

/-- Serialization of the whole collection, used to state that the collection
is byte-for-byte unchanged under re-serialization (the export path differs
only in pretty-printing whitespace). -/
def serializeCollection (rows : List JsonValue) : String := jsonStringify (.arr rows)

/-- The population payload `(t, t_n, population_t, population_tn)` of the
rate demo. -/
structure PopPayload where
  t : Int
  t_n : Int
  population_t : Rat
  population_tn : Rat

/-- The result record of `computeRates`; `none` models the `null` the source
stores for an undefined rate. -/
structure AreaStats where
  area_t_m2 : Rat
  area_tn_m2 : Rat
  years : Int
  lcr : Option Rat
  pgr : Option Rat
  ratio : Option Rat

/-- `computeRates` of the demo page.  The argument `lg` abstracts the opaque
`Math.log`; real-number arithmetic is modelled over the rationals.  The
structure around the logarithm — the one-year floor on the elapsed time, the
strict-positivity guards, and the null propagation into the ratio — is
modelled exactly; the function is total, so no input can make it raise. -/
def computeRates (lg : Rat → Rat) (areaT areaTN : Rat) (pop : PopPayload) : AreaStats :=
  let years : Int := max 1 (pop.t_n - pop.t)
  let lcr : Option Rat :=
    if areaT > 0 ∧ areaTN > 0 then some (lg (areaTN / areaT) / (years : Rat)) else none
  let pgr : Option Rat :=
    if pop.population_t > 0 ∧ pop.population_tn > 0 then
      some (lg (pop.population_tn / pop.population_t) / (years : Rat))
    else none
  let ratio : Option Rat :=
    match lcr, pgr with
    | some l, some p => if p ≠ 0 then some (l / p) else none
    | _, _ => none
  ⟨areaT, areaTN, years, lcr, pgr, ratio⟩

/-- A sample explorer state: one loaded record with key `a`, one row marked
edited, and an open edit session for that row's identity `1-0`. -/
def sampleEditingState : ExplorerState where
  rows := [.obj [("a", .num 1)]]
  jsonData := [.obj [("a", .num 1)]]
  jsonKeys := ["a"]
  q := ""
  columnFilters := []
  columnExactMatch := []
  visibleColumns := [("a", true)]
  editingRowId := some "1-0"
  editingData := .obj [("a", .num 1)]
  editedRows := ["1-0"]

/-- The sample state with its open session retargeted to an identity that no
current row carries (as after the collection changed under the session). -/
def staleSessionState : ExplorerState :=
  { sampleEditingState with editingRowId := some "zzz-5" }

section Lemmas

/-- The fuel argument of `natDecAux` is irrelevant once it exceeds the input. -/
theorem natDecAux_irrel : ∀ f1 f2 n : Nat, n < f1 → n < f2 →
    natDecAux f1 n = natDecAux f2 n := by
  intro f1
  induction f1 with
  | zero => intro f2 n h1 h2; omega
  | succ f ih =>
      intro f2 n h1 h2
      cases f2 with
      | zero => omega
      | succ g =>
          simp only [natDecAux]
          by_cases h : n < 10
          · simp [h]
          · simp only [if_neg h]
            have hd : n / 10 < n := Nat.div_lt_self (by omega) (by omega)
            have := ih g (n / 10) (by omega) (by omega)
            rw [this]

/-- Unfolding rule for the decimal digit sequence. -/
theorem natDecChars_eq (n : Nat) :
    natDecChars n =
      if n < 10 then [Nat.digitChar n]
      else natDecChars (n / 10) ++ [Nat.digitChar (n % 10)] := by
  show natDecAux (n + 1) n = _
  simp only [natDecAux]
  by_cases h : n < 10
  · simp [h]
  · simp only [if_neg h]
    have hd : n / 10 < n := Nat.div_lt_self (by omega) (by omega)
    rw [natDecAux_irrel n (n / 10 + 1) (n / 10) (by omega) (by omega)]
    rfl

/-- A decimal digit sequence is never empty. -/
theorem natDecChars_ne_nil (n : Nat) : natDecChars n ≠ [] := by
  rw [natDecChars_eq]
  by_cases h : n < 10 <;> simp [h]

/-- `Nat.digitChar` is injective below 10. -/
theorem digitChar_inj (a b : Nat) (ha : a < 10) (hb : b < 10)
    (h : Nat.digitChar a = Nat.digitChar b) : a = b := by
  have key : ∀ x y : Fin 10, Nat.digitChar x.val = Nat.digitChar y.val → x = y := by decide
  exact congrArg Fin.val (key ⟨a, ha⟩ ⟨b, hb⟩ h)

/-- Decimal digit sequences determine the number: `natDecChars` is injective. -/
theorem natDecChars_inj : ∀ m n : Nat, natDecChars m = natDecChars n → m = n := by
  intro m
  induction m using Nat.strong_induction_on with
  | _ m ih =>
      intro n h
      rw [natDecChars_eq m, natDecChars_eq n] at h
      by_cases hm : m < 10 <;> by_cases hn : n < 10
      · rw [if_pos hm, if_pos hn] at h
        exact digitChar_inj m n hm hn (List.singleton_injective h)
      · exfalso
        rw [if_pos hm, if_neg hn] at h
        have hlen := congrArg List.length h
        simp only [List.length_append, List.length_singleton] at hlen
        exact natDecChars_ne_nil (n / 10) (List.length_eq_zero.mp (by omega))
      · exfalso
        rw [if_neg hm, if_pos hn] at h
        have hlen := congrArg List.length h
        simp only [List.length_append, List.length_singleton] at hlen
        exact natDecChars_ne_nil (m / 10) (List.length_eq_zero.mp (by omega))
      · rw [if_neg hm, if_neg hn] at h
        have hlen : (natDecChars (m / 10)).length = (natDecChars (n / 10)).length := by
          have := congrArg List.length h
          simp at this
          omega
        obtain ⟨h1, h2⟩ := List.append_inj h hlen
        have hdm : m / 10 < m := Nat.div_lt_self (by omega) (by omega)
        have hq : m / 10 = n / 10 := ih (m / 10) hdm (n / 10) h1
        have hmod : m % 10 = n % 10 :=
          digitChar_inj _ _ (Nat.mod_lt _ (by omega)) (Nat.mod_lt _ (by omega))
            (List.singleton_injective h2)
        omega

/-- Row ids computed at distinct natural indices are distinct, whatever the
row content: the decimal index after the final separator discriminates. -/
theorem getRowId_ne (keys : List String) (row : JsonValue) (i j : Nat) (hij : i ≠ j) :
    getRowId keys row (i : Int) ≠ getRowId keys row (j : Int) := by
  intro h
  apply hij
  unfold getRowId at h
  have hd := congrArg String.data h
  rw [String.data_append, String.data_append, String.data_append,
    String.data_append] at hd
  have htail := List.append_cancel_left hd
  exact natDecChars_inj i j htail

/-- An element is a member of the set it was just added to. -/
theorem mem_jsSetAdd (s : List String) (x : String) : x ∈ jsSetAdd s x := by
  unfold jsSetAdd
  split
  · next h => exact List.mem_of_elem_eq_true h
  · simp

/-- `find?` over an enumeration misses when the indexed predicate rejects
every position. -/
theorem find?_enumFrom_eq_none (p : Nat → JsonValue → Bool) (k : Nat)
    (l : List JsonValue)
    (h : ∀ i, (hi : i < l.length) → p (k + i) (l.get ⟨i, hi⟩) = false) :
    (List.enumFrom k l).find? (fun q => p q.1 q.2) = none := by
  induction l generalizing k with
  | nil => rfl
  | cons a t ih =>
      have h0 : p k a = false := by simpa using h 0 (by simp)
      have hrest : ∀ i, (hi : i < t.length) → p (k + 1 + i) (t.get ⟨i, hi⟩) = false := by
        intro i hi
        have := h (i + 1) (by simpa using Nat.succ_lt_succ hi)
        simpa [Nat.add_comm, Nat.add_assoc, Nat.add_left_comm] using this
      simp only [List.enumFrom, List.find?, h0]
      exact ih (k + 1) hrest

/-- `findIndexWithIdx` misses when the indexed predicate rejects every
position. -/
theorem findIndexWithIdx_eq_none (p : Nat → JsonValue → Bool) (l : List JsonValue)
    (h : ∀ i, (hi : i < l.length) → p i (l.get ⟨i, hi⟩) = false) :
    findIndexWithIdx p l = none := by
  unfold findIndexWithIdx
  have : (List.enumFrom 0 l).find? (fun q => p q.1 q.2) = none :=
    find?_enumFrom_eq_none p 0 l (by simpa using h)
  rw [show l.enum = List.enumFrom 0 l from rfl, this]
  rfl

end Lemmas

/-- C1: a record appears in the filtered view iff it is in the collection,
passes the global query predicate (vacuous when empty, otherwise substring
mode, case-insensitive, OR-combined across all known fields), and passes
every configured per-field predicate (ANDed). -/
theorem filtered_iff_global_and_columns (rows : List JsonValue) (jsonKeys : List String)
    (q : String) (columnFilters : List (String × String))
    (columnExactMatch : List (String × Bool)) (r : JsonValue) :
    r ∈ filteredRows rows jsonKeys q columnFilters columnExactMatch ↔
      r ∈ rows ∧ passesGlobalQuery jsonKeys q r
        ∧ passesColumnFilters columnFilters columnExactMatch r := by
  unfold filteredRows rowPasses passesGlobalQuery passesColumnFilters
  rw [List.mem_filter, Bool.and_eq_true, List.all_eq_true]
  constructor
  · rintro ⟨hr, h1, h2⟩
    refine ⟨hr, ?_, fun p hp => h2 p hp⟩
    by_cases hq : q = ""
    · exact Or.inl hq
    · rw [if_neg hq, List.any_eq_true] at h1
      exact Or.inr h1
  · rintro ⟨hr, hg, hc⟩
    refine ⟨hr, ?_, fun p hp => hc p hp⟩
    rcases hg with hq | hex
    · rw [if_pos hq]
    · by_cases hq : q = ""
      · rw [if_pos hq]
      · rw [if_neg hq, List.any_eq_true]
        exact hex

/-- C2: for a non-empty pattern, the per-field predicate rejects null/absent
values; on a sequence, substring mode tests the space-joined elements while
exact mode tests each stringified element for case-insensitive equality; on a
nested mapping it applies the test to the JSON serialization; on a scalar it
applies the test to the stringified value; in particular, exact mode with
pattern "1" on a tier value accepts exactly the values stringifying to "1"
and rejects "10", which substring mode accepts. -/
theorem columnFilter_semantics (ex : Bool) (pat : String) (b : Bool) (n : Int)
    (s : String) (xs : List JsonValue) (fs : List (String × JsonValue))
    (hpat : pat ≠ "") :
    columnFilterPass ex pat none = false
    ∧ columnFilterPass ex pat (some .null) = false
    ∧ columnFilterPass false pat (some (.arr xs))
        = strIncludes (jsToLower (jsJoin " " xs)) (jsToLower pat)
    ∧ (columnFilterPass true pat (some (.arr xs))
        = xs.any fun item => jsToLower (jsToString item) == jsToLower pat)
    ∧ columnFilterPass false pat (some (.obj fs))
        = strIncludes (jsToLower (jsonStringify (.obj fs))) (jsToLower pat)
    ∧ columnFilterPass true pat (some (.obj fs))
        = (jsToLower (jsonStringify (.obj fs)) == jsToLower pat)
    ∧ columnFilterPass false pat (some (.str s))
        = strIncludes (jsToLower (jsToString (.str s))) (jsToLower pat)
    ∧ columnFilterPass true pat (some (.str s))
        = (jsToLower (jsToString (.str s)) == jsToLower pat)
    ∧ columnFilterPass false pat (some (.num n))
        = strIncludes (jsToLower (jsToString (.num n))) (jsToLower pat)
    ∧ columnFilterPass true pat (some (.num n))
        = (jsToLower (jsToString (.num n)) == jsToLower pat)
    ∧ columnFilterPass false pat (some (.bool b))
        = strIncludes (jsToLower (jsToString (.bool b))) (jsToLower pat)
    ∧ columnFilterPass true pat (some (.bool b))
        = (jsToLower (jsToString (.bool b)) == jsToLower pat)
    ∧ columnFilterPass true "1" (some (.str "10")) = false
    ∧ columnFilterPass false "1" (some (.str "10")) = true
    ∧ columnFilterPass true "1" (some (.str "1")) = true
    ∧ columnFilterPass true "1" (some (.num 10)) = false
    ∧ columnFilterPass false "1" (some (.num 10)) = true
    ∧ columnFilterPass true "1" (some (.num 1)) = true := by
  refine ⟨?_, ?_, ?_, ?_, ?_, ?_, ?_, ?_, ?_, ?_, ?_, ?_, ?_, ?_, ?_, ?_, ?_, ?_⟩ <;>
    first
      | decide
      | simp [columnFilterPass, hpat]

/-- C2 witness: the semantics theorem applied at pattern "1" and concrete
sample values. -/
theorem columnFilter_semantics_witness :
    ("1" : String) ≠ ""
    ∧ (columnFilterPass true "1" none = false
      ∧ columnFilterPass true "1" (some .null) = false
      ∧ columnFilterPass false "1" (some (.arr [.str "Tier", .num 10]))
          = strIncludes (jsToLower (jsJoin " " [.str "Tier", .num 10])) (jsToLower "1")
      ∧ columnFilterPass true "1" (some (.arr [.str "Tier", .num 10]))
          = ([JsonValue.str "Tier", .num 10].any fun item =>
              jsToLower (jsToString item) == jsToLower "1")
      ∧ columnFilterPass false "1" (some (.obj [("t", .num 1)]))
          = strIncludes (jsToLower (jsonStringify (.obj [("t", .num 1)]))) (jsToLower "1")
      ∧ columnFilterPass true "1" (some (.obj [("t", .num 1)]))
          = (jsToLower (jsonStringify (.obj [("t", .num 1)])) == jsToLower "1")
      ∧ columnFilterPass false "1" (some (.str "Tier 1"))
          = strIncludes (jsToLower (jsToString (.str "Tier 1"))) (jsToLower "1")
      ∧ columnFilterPass true "1" (some (.str "Tier 1"))
          = (jsToLower (jsToString (.str "Tier 1")) == jsToLower "1")
      ∧ columnFilterPass false "1" (some (.num 10))
          = strIncludes (jsToLower (jsToString (.num 10))) (jsToLower "1")
      ∧ columnFilterPass true "1" (some (.num 10))
          = (jsToLower (jsToString (.num 10)) == jsToLower "1")
      ∧ columnFilterPass false "1" (some (.bool true))
          = strIncludes (jsToLower (jsToString (.bool true))) (jsToLower "1")
      ∧ columnFilterPass true "1" (some (.bool true))
          = (jsToLower (jsToString (.bool true)) == jsToLower "1")
      ∧ columnFilterPass true "1" (some (.str "10")) = false
      ∧ columnFilterPass false "1" (some (.str "10")) = true
      ∧ columnFilterPass true "1" (some (.str "1")) = true
      ∧ columnFilterPass true "1" (some (.num 10)) = false
      ∧ columnFilterPass false "1" (some (.num 10)) = true
      ∧ columnFilterPass true "1" (some (.num 1)) = true) :=
  ⟨by decide,
    columnFilter_semantics true "1" true 10 "Tier 1" [.str "Tier", .num 10]
      [("t", .num 1)] (by decide)⟩

/-- C3: `computeRates` yields `years = max 1 (tN - t)`; `lcr` is defined iff
both areas are strictly positive and then equals the (abstracted) logarithm
of the area ratio divided by the elapsed years; `pgr` likewise for the two
populations; the ratio field is defined iff both rates are defined and `pgr`
is nonzero, and then equals `lcr / pgr`.  The model is a total function, so
no input — in particular no non-positive input — raises. -/
theorem computeRates_correct (lg : Rat → Rat) (areaT areaTN : Rat) (pop : PopPayload) :
    (computeRates lg areaT areaTN pop).years = max 1 (pop.t_n - pop.t)
    ∧ (computeRates lg areaT areaTN pop).lcr =
        (if 0 < areaT ∧ 0 < areaTN then
          some (lg (areaTN / areaT) / ((max 1 (pop.t_n - pop.t) : Int) : Rat))
        else none)
    ∧ (computeRates lg areaT areaTN pop).pgr =
        (if 0 < pop.population_t ∧ 0 < pop.population_tn then
          some (lg (pop.population_tn / pop.population_t)
            / ((max 1 (pop.t_n - pop.t) : Int) : Rat))
        else none)
    ∧ AreaStats.ratio (computeRates lg areaT areaTN pop) =
        (match (computeRates lg areaT areaTN pop).lcr,
            (computeRates lg areaT areaTN pop).pgr with
         | some l, some p => if p ≠ 0 then some (l / p) else none
         | _, _ => none) :=
  ⟨rfl, rfl, rfl, rfl⟩

/-- C4: the filtered view is a sublist of the collection — a subset keeping
the original relative order — and filtering is idempotent: refiltering its
own output with the same filter state yields the same sequence. -/
theorem filtered_sublist_idempotent (rows : List JsonValue) (jsonKeys : List String)
    (q : String) (columnFilters : List (String × String))
    (columnExactMatch : List (String × Bool)) :
    (filteredRows rows jsonKeys q columnFilters columnExactMatch).Sublist rows
    ∧ filteredRows (filteredRows rows jsonKeys q columnFilters columnExactMatch)
        jsonKeys q columnFilters columnExactMatch
      = filteredRows rows jsonKeys q columnFilters columnExactMatch :=
  ⟨List.filter_sublist rows,
    List.filter_eq_self.mpr fun _ ha => List.of_mem_filter ha⟩

/-- C5: importing aborts without any state change when parsing failed; a
parsed top-level array is loaded directly; a parsed non-array value is
wrapped into a one-element collection, so importing the object `a: 1` yields
the one-record collection whose known fields are exactly `a`. -/
theorem importCollection_correct (st : ExplorerState) (xs : List JsonValue) :
    importCollection st none = st
    ∧ importCollection st (some (.arr xs)) = processJsonData st xs
    ∧ importCollection st (some (.obj [("a", .num 1)]))
        = processJsonData st [.obj [("a", .num 1)]]
    ∧ (importCollection st (some (.obj [("a", .num 1)]))).rows = [.obj [("a", .num 1)]]
    ∧ (importCollection st (some (.obj [("a", .num 1)]))).jsonKeys = ["a"] :=
  ⟨rfl, rfl, rfl, rfl, rfl⟩

/-- C6 counterexample: loading a fresh collection over a state with a marked
edited row and an open session leaves the edited set and the session exactly
as they were, refuting the claim that load clears the edit overlay. -/
theorem load_clears_overlay_counterexample :
    (processJsonData sampleEditingState [.obj [("b", .num 2)]]).editedRows = ["1-0"]
    ∧ (processJsonData sampleEditingState [.obj [("b", .num 2)]]).editedRows ≠ []
    ∧ (processJsonData sampleEditingState [.obj [("b", .num 2)]]).editingRowId
        = some "1-0" := by
  refine ⟨rfl, ?_, rfl⟩
  decide

/-- C6 (amended): load replaces the collection, the key universe and the
column-visibility defaults, and preserves — rather than clears — the edit
overlay (edited set, open session id, draft) as well as the filter state
(global query and per-column filters with their modes). -/
theorem load_preserves_overlay_and_filters (st : ExplorerState) (data : List JsonValue) :
    (processJsonData st data).editedRows = st.editedRows
    ∧ (processJsonData st data).editingRowId = st.editingRowId
    ∧ (processJsonData st data).editingData = st.editingData
    ∧ (processJsonData st data).q = st.q
    ∧ (processJsonData st data).columnFilters = st.columnFilters
    ∧ (processJsonData st data).columnExactMatch = st.columnExactMatch := by
  unfold processJsonData
  by_cases h : data.isEmpty <;> simp [h]

/-- C7: a row id is the derived base identity — first truthy value among the
fields `unsd_code`, `id`, `indicator`, else the first known field's value —
concatenated with a separator and the positional index; consequently row ids
computed at different indices differ even for identical row content. -/
theorem getRowId_structure_and_distinct (keys : List String) (row : JsonValue)
    (i j : Nat) (hij : i ≠ j) :
    getRowId keys row (i : Int) = rowBaseId keys row ++ "-" ++ intDecimal (i : Int)
    ∧ getRowId keys row (i : Int) ≠ getRowId keys row (j : Int) :=
  ⟨rfl, getRowId_ne keys row i j hij⟩

/-- C7 witness: the structure and distinctness of row ids at indices 0 and 1
of a concrete record. -/
theorem getRowId_structure_and_distinct_witness :
    (0 : Nat) ≠ (1 : Nat)
    ∧ (getRowId ["a"] (.obj [("a", .num 1)]) ((0 : Nat) : Int)
        = rowBaseId ["a"] (.obj [("a", .num 1)]) ++ "-" ++ intDecimal ((0 : Nat) : Int)
      ∧ getRowId ["a"] (.obj [("a", .num 1)]) ((0 : Nat) : Int)
          ≠ getRowId ["a"] (.obj [("a", .num 1)]) ((1 : Nat) : Int)) :=
  ⟨by decide, getRowId_structure_and_distinct ["a"] (.obj [("a", .num 1)]) 0 1 (by decide)⟩

/-- C8 counterexample: invoking `startEditing` while a session for the
distinct identity `other-7` is open is not rejected: the open session is
replaced by a session for the requested record's identity `1-0`. -/
theorem beginEdit_conflict_counterexample :
    ({ sampleEditingState with editingRowId := some "other-7" } :
        ExplorerState).editingRowId = some "other-7"
    ∧ (startEditing { sampleEditingState with editingRowId := some "other-7" }
        (.obj [("a", .num 1)])).editingRowId = some "1-0"
    ∧ ("1-0" : String) ≠ "other-7" := by
  refine ⟨rfl, ?_, by decide⟩
  decide

/-- C8 (amended): `startEditing` never rejects: invoked while a session for a
different identity is already open, it replaces that session with one for the
requested record — the session id becomes the freshly computed row id and the
draft a copy of the record — leaving the collection and the edited set
untouched.  No EditSessionConflict condition exists. -/
theorem startEditing_replaces_session (st : ExplorerState) (rowData : JsonValue)
    (oldId : String) (_hopen : st.editingRowId = some oldId) :
    (startEditing st rowData).editingRowId
      = some (getRowId st.jsonKeys rowData
          (jsFindIndex (fun r => jsonStringify r == jsonStringify rowData) st.rows))
    ∧ (startEditing st rowData).editingData = spreadToObj rowData
    ∧ (startEditing st rowData).rows = st.rows
    ∧ (startEditing st rowData).jsonData = st.jsonData
    ∧ (startEditing st rowData).editedRows = st.editedRows :=
  ⟨rfl, rfl, rfl, rfl, rfl⟩

/-- C8 witness: the replacement behaviour at the sample state, whose open
session has identity `1-0`. -/
theorem startEditing_replaces_session_witness :
    sampleEditingState.editingRowId = some "1-0"
    ∧ ((startEditing sampleEditingState (.obj [("b", .num 2)])).editingRowId
        = some (getRowId sampleEditingState.jsonKeys (.obj [("b", .num 2)])
            (jsFindIndex
              (fun r => jsonStringify r == jsonStringify (.obj [("b", .num 2)]))
              sampleEditingState.rows))
      ∧ (startEditing sampleEditingState (.obj [("b", .num 2)])).editingData
          = spreadToObj (.obj [("b", .num 2)])
      ∧ (startEditing sampleEditingState (.obj [("b", .num 2)])).rows
          = sampleEditingState.rows
      ∧ (startEditing sampleEditingState (.obj [("b", .num 2)])).jsonData
          = sampleEditingState.jsonData
      ∧ (startEditing sampleEditingState (.obj [("b", .num 2)])).editedRows
          = sampleEditingState.editedRows) :=
  ⟨rfl, startEditing_replaces_session sampleEditingState (.obj [("b", .num 2)]) "1-0" rfl⟩

/-- C9: `startEditing` (beginEdit) followed immediately by `cancelEdit`
leaves the record collection unchanged — the rows, their `jsonData` mirror
and the collection's serialization are identical, the edited set is
untouched, and the session is closed: canceling discards the draft without
mutating the collection. -/
theorem beginEdit_cancel_collection_unchanged (st : ExplorerState) (rowData : JsonValue) :
    (cancelEdit (startEditing st rowData)).rows = st.rows
    ∧ (cancelEdit (startEditing st rowData)).jsonData = st.jsonData
    ∧ serializeCollection (cancelEdit (startEditing st rowData)).rows
        = serializeCollection st.rows
    ∧ (cancelEdit (startEditing st rowData)).editedRows = st.editedRows
    ∧ (cancelEdit (startEditing st rowData)).editingRowId = none :=
  ⟨rfl, rfl, rfl, rfl, rfl⟩

/-- C10: committing while the open session's identity matches no record at
any index leaves the collection (rows and their `jsonData` mirror) unchanged,
yet still adds the stale identity to the edited set and closes the session —
so the edited set can contain identities matching no record. -/
theorem saveEdit_stale_identity (st : ExplorerState) (rid : String)
    (hopen : st.editingRowId = some rid)
    (hmiss : ∀ i, (hi : i < st.rows.length) →
        getRowId st.jsonKeys (st.rows.get ⟨i, hi⟩) (i : Int) ≠ rid) :
    (saveEdit st).rows = st.rows
    ∧ (saveEdit st).jsonData = st.jsonData
    ∧ (saveEdit st).editedRows = jsSetAdd st.editedRows rid
    ∧ rid ∈ (saveEdit st).editedRows
    ∧ (saveEdit st).editingRowId = none := by
  have hnone :
      findIndexWithIdx (fun i r => getRowId st.jsonKeys r (i : Int) == rid) st.rows
        = none := by
    refine findIndexWithIdx_eq_none _ _ fun i hi => ?_
    exact beq_eq_false_iff_ne.mpr (hmiss i hi)
  unfold saveEdit
  rw [hopen]
  simp only [hnone]
  exact ⟨trivial, trivial, trivial, mem_jsSetAdd st.editedRows rid, trivial⟩

/-- C10 witness: the stale-identity behaviour at the sample state whose open
session identity `zzz-5` matches no current row. -/
theorem saveEdit_stale_identity_witness :
    staleSessionState.editingRowId = some "zzz-5"
    ∧ (∀ i, (hi : i < staleSessionState.rows.length) →
        getRowId staleSessionState.jsonKeys (staleSessionState.rows.get ⟨i, hi⟩)
          (i : Int) ≠ "zzz-5")
    ∧ ((saveEdit staleSessionState).rows = staleSessionState.rows
      ∧ (saveEdit staleSessionState).jsonData = staleSessionState.jsonData
      ∧ (saveEdit staleSessionState).editedRows
          = jsSetAdd staleSessionState.editedRows "zzz-5"
      ∧ "zzz-5" ∈ (saveEdit staleSessionState).editedRows
      ∧ (saveEdit staleSessionState).editingRowId = none) :=
  ⟨rfl, by decide, saveEdit_stale_identity staleSessionState "zzz-5" rfl (by decide)⟩

end SdgLadm
